import Mathlib

/-
Verification of the LinkedIn open-to-work scraper core.

Shallow embedding of:
  - `src/scraper/profile_parser.py` (`ProfileParser.parse_name`,
    `ProfileParser.extract_company_from_headline`, `ProfileParser.parse_card`),
  - `src/scraper/opentowork.py` (`OpenToWorkDetector.detect_from_card`),
  - the traversal loop of `LinkedInScraper.scrape_search_results` in
    `src/scraper/linkedin.py`.

Browser/DOM primitives are modelled as data supplied by the environment:
a result card is the tuple of values the DOM queries would return, with
`Except Unit` marking reads that raise.  The Python regular-expression
calls are embedded by hand-rolled scanners implementing the exact
backtracking semantics of the concrete patterns used by the source.
-/

namespace Scraper

/-! ### Python string primitives -/

/-- ASCII whitespace as recognized by Python `str.strip()` and the regex
class `\s` (` `, `\t`, `\n`, `\r`, `\x0b`, `\x0c`). -/
def isPyWs (c : Char) : Bool :=
  c = ' ' || c = '\t' || c = '\n' || c = '\r' || c = '\x0b' || c = '\x0c'

/-- Python `str.strip()`: drop leading and trailing whitespace. -/
def stripChars (cs : List Char) : List Char :=
  ((cs.dropWhile isPyWs).reverse.dropWhile isPyWs).reverse

/-- Python `re.sub(r"\s+", " ", s)`: each maximal whitespace run becomes one space. -/
def collapseWs : List Char → List Char
  | [] => []
  | c :: rest =>
    if isPyWs c then
      match rest with
      | [] => [' ']
      | r :: _ => if isPyWs r then collapseWs rest else ' ' :: collapseWs rest
    else c :: collapseWs rest

/-- State machine for `re.sub(r"\([^)]*\)", "", s)`.  The second argument
buffers the characters of a potential paren span (in reverse, including the
opening paren); a closing paren discards the buffered span, end of input
restores it literally (the regex needs a closing paren to match, and once no
`)` remains no later occurrence can match either). -/
def parenGo : List Char → Option (List Char) → List Char
  | [], none => []
  | [], some buf => buf.reverse
  | c :: rest, none =>
    if c = '(' then parenGo rest (some [c]) else c :: parenGo rest none
  | c :: rest, some buf =>
    if c = ')' then parenGo rest none else parenGo rest (some (c :: buf))

/-- Python `re.sub(r"\([^)]*\)", "", s)`: remove every parenthesized span. -/
def removeParens (cs : List Char) : List Char := parenGo cs none

/-- Python `re.sub(r",.*$", "", s)` on a newline-free string (inside `parse_name`
the preceding `\s+` collapse has already replaced every newline by a space):
keep the prefix before the first comma. -/
def removeCommaSuffix (cs : List Char) : List Char :=
  cs.takeWhile (fun c => c ≠ ',')

/-- Python `s.split(" ")`: split at every single space; runs of spaces
produce empty fields, and the empty string yields one empty field. -/
def splitSp : List Char → List (List Char)
  | [] => [[]]
  | c :: rest =>
    if c = ' ' then [] :: splitSp rest
    else
      match splitSp rest with
      | [] => [[c]]
      | t :: ts => (c :: t) :: ts

/-- Python `" ".join(parts)`. -/
def joinSp : List (List Char) → List Char
  | [] => []
  | [x] => x
  | x :: y :: rest => x ++ ' ' :: joinSp (y :: rest)

/-! ### `ProfileParser.parse_name` -/

/-- The normalization pipeline of `ProfileParser.parse_name`:
`strip`, collapse `\s+` to a single space, remove parenthesized spans
(then strip), remove everything from the first comma (then strip). -/
def normalizeChars (cs : List Char) : List Char :=
  stripChars (removeCommaSuffix (stripChars (removeParens (collapseWs (stripChars cs)))))

/-- String-level wrapper of `normalizeChars`. -/
def normalizeName (s : String) : String := ⟨normalizeChars s.toList⟩

/-- Embeds `ProfileParser.parse_name`: normalize, split on single spaces, and
return `(first, rest joined)` following the three-way branch of the source. -/
def parse_name (full_name : String) : String × String :=
  match splitSp (normalizeChars full_name.toList) with
  | [] => ("", "")
  | [x] => (⟨x⟩, "")
  | x :: y :: rest => (⟨x⟩, ⟨joinSp (y :: rest)⟩)

/-! ### `ProfileParser.extract_company_from_headline`

The source applies, in order, the two case-insensitive patterns
`(?:at|@|chez|presso|bei)\s+(.+?)(?:\s*[|\-]|$)` and
`[|\-]\s*(.+?)(?:\s*[|\-]|$)` with `re.search`, returning the first
stripped capture of length greater than one.  The scanners below
implement exactly the leftmost-match backtracking semantics of those two
patterns: the branches of the alternation start with distinct characters, `\s+`
and `\s*` are greedy (tried longest first), `(.+?)` is lazy (shortest
first, never across a newline), and `$` matches at the end of the string
or just before a terminal newline. -/

/-- Does one of the connector words match at the head (case-insensitively)?
Returns its length.  The five branches start with distinct characters, so
at most one can match at a given position. -/
def matchKwAt (cs : List Char) : Option Nat :=
  if (cs.take 2).map Char.toLower = ['a', 't'] then some 2
  else if (cs.take 1).map Char.toLower = ['@'] then some 1
  else if (cs.take 4).map Char.toLower = ['c', 'h', 'e', 'z'] then some 4
  else if (cs.take 6).map Char.toLower = ['p', 'r', 'e', 's', 's', 'o'] then some 6
  else if (cs.take 3).map Char.toLower = ['b', 'e', 'i'] then some 3
  else none

/-- The separator class `[|\-]`. -/
def sepChar (c : Char) : Bool := c = '|' || c = '-'

/-- The anchor `$` without MULTILINE: end of input, or just before a final newline. -/
def dollarOk : List Char → Bool
  | [] => true
  | [c] => c = '\n'
  | _ => false

/-- The trailing group `(?:\s*[|\-]|$)` at the given suffix.  Since no
whitespace character is a separator, `\s*[|\-]` succeeds exactly when the
first non-whitespace character is a separator. -/
def tailOk (suf : List Char) : Bool :=
  (match suf.dropWhile isPyWs with
   | [] => false
   | c :: _ => sepChar c)
  || dollarOk suf

/-- Lazy capture `(.+?)` followed by `(?:\s*[|\-]|$)`: the shortest
nonempty newline-free prefix whose remainder satisfies `tailOk`. -/
def lazyCap : List Char → Option (List Char)
  | [] => none
  | c :: rest =>
    if c = '\n' then none
    else if tailOk rest then some [c]
    else
      match lazyCap rest with
      | some cap => some (c :: cap)
      | none => none

/-- Candidate capture-start suffixes for the greedy whitespace run `ws`
followed by `rest2`: the regex engine gives back whitespace characters to
the lazy group one at a time, so the capture may start after the full run,
then one character earlier, and so on (`count` candidates in this order). -/
def wsSuffixes (ws rest2 : List Char) (count : Nat) : List (List Char) :=
  (List.range count).map (fun k => ws.drop (ws.length - k) ++ rest2)

/-- Tail of pattern 1 after the connector word: `\s+(.+?)(?:\s*[|\-]|$)`
(`\s+` needs at least one whitespace character, so the capture never
swallows the entire run). -/
def matchAfterKw (rest : List Char) : Option (List Char) :=
  let ws := rest.takeWhile isPyWs
  let rest2 := rest.dropWhile isPyWs
  if ws.isEmpty then none
  else (wsSuffixes ws rest2 ws.length).findSome? lazyCap

/-- Tail of pattern 2 after the separator: `\s*(.+?)(?:\s*[|\-]|$)`
(`\s*` may be empty, so the capture may also start at the run itself). -/
def matchAfterSep (rest : List Char) : Option (List Char) :=
  let ws := rest.takeWhile isPyWs
  let rest2 := rest.dropWhile isPyWs
  (wsSuffixes ws rest2 (ws.length + 1)).findSome? lazyCap

/-- Embeds `re.search` of pattern 1: leftmost start position wins; a connector
word whose tail fails is skipped and the scan resumes one character on. -/
def searchA : List Char → Option (List Char)
  | [] => none
  | c :: rest =>
    match matchKwAt (c :: rest) with
    | some k =>
      match matchAfterKw ((c :: rest).drop k) with
      | some cap => some cap
      | none => searchA rest
    | none => searchA rest

/-- Embeds `re.search` of pattern 2: leftmost separator whose tail matches. -/
def searchB : List Char → Option (List Char)
  | [] => none
  | c :: rest =>
    if sepChar c then
      match matchAfterSep rest with
      | some cap => some cap
      | none => searchB rest
    else searchB rest

/-- The acceptance test on a capture: `company = match.group(1).strip()`
followed by `if company and len(company) > 1`. -/
def companyFromCap (cap : List Char) : Option String :=
  let comp := stripChars cap
  if 1 < comp.length then some ⟨comp⟩ else none

/-- One iteration of the pattern loop body of the source. -/
def tryPat (res : Option (List Char)) : Option String :=
  match res with
  | some cap => companyFromCap cap
  | none => none

/-- Embeds `ProfileParser.extract_company_from_headline`: try pattern 1 then
pattern 2, returning the first accepted capture, else `""`. -/
def extract_company_from_headline (headline : String) : String :=
  match tryPat (searchA headline.toList) with
  | some c => c
  | none =>
    match tryPat (searchB headline.toList) with
    | some c => c
    | none => ""

/-! ### `OpenToWorkDetector.detect_from_card`

A card scope is modelled by the values its DOM reads would produce;
`Except Unit` marks a read that raises.  `detect_green_frame` wraps its
whole body in `try/except Exception: return False`, so it is a total
boolean function of the image URL and is modelled as the oracle field
`greenFrame` (its network and pixel arithmetic are outside the embedding). -/

/-- Python `str.lower()` restricted to ASCII (the indicator sets and the
markup class names compared against are ASCII). -/
def lowerStr (s : String) : String := ⟨s.toList.map Char.toLower⟩

/-- Boolean test that the first list is a prefix of the second. -/
def charsPrefixOf : List Char → List Char → Bool
  | [], _ => true
  | _ :: _, [] => false
  | a :: as, b :: bs => (a = b) && charsPrefixOf as bs

/-- Boolean test that the first list occurs contiguously in the second. -/
def charsInfixOf (needle : List Char) : List Char → Bool
  | [] => needle.isEmpty
  | h :: t => charsPrefixOf needle (h :: t) || charsInfixOf needle t

/-- Python `needle in hay` on strings. -/
def containsSub (hay needle : String) : Bool :=
  charsInfixOf needle.toList hay.toList

/-- Embeds `OpenToWorkDetector.OPEN_TO_WORK_INDICATORS`. -/
def OPEN_TO_WORK_INDICATORS : List String :=
  ["open-to-work", "opentowork", "#opentowork", "open to work",
   "open for work", "actively seeking", "seeking opportunities",
   "seeking new opportunities", "looking for opportunities",
   "available for hire", "available immediately", "open to opportunities"]

/-- Embeds `OpenToWorkDetector.BADGE_SELECTORS`. -/
def BADGE_SELECTORS : List String :=
  ["[data-test-id=\x27open-to-work-badge\x27]", ".pv-open-to-work-card",
   ".pv-member-badge--is-open-to-work", "img[alt*=\x27Open to work\x27]",
   "img[alt*=\x27open to work\x27]", "img[alt*=\x27Open To Work\x27]",
   "[class*=\x27open-to-work\x27]", "[class*=\x27opentowork\x27]",
   ".member-badge--open-to-work", "[class*=\x27job-seeker\x27]",
   "[class*=\x27jobseeker\x27]", ".photo-frame--green",
   "svg[aria-label*=\x27Open to work\x27]", "svg[aria-label*=\x27open to work\x27]"]

/-- Embeds `OpenToWorkDetector.PHOTO_FRAME_INDICATORS`. -/
def PHOTO_FRAME_INDICATORS : List String :=
  ["open-to-work-photo-frame", "photo-frame--open-to-work", "job-seeker",
   "jobseeker", "#70b5f9", "rgb(112, 181, 249)"]

/-- One `img` element inside a card: the results of
`get_attribute("src") or ""` and `get_attribute("alt") or ""` (an
`Except.error` stands for `nth`/`get_attribute` raising). -/
structure ImgRead where
  src : Except Unit String
  alt : Except Unit String

/-- A result-card scope, as seen by `detect_from_card`: the result of
`inner_html()`, the per-selector `locator(sel).count()` results, the
result of enumerating `locator("img")`, and the `detect_green_frame`
oracle. -/
structure Card where
  innerHtml : Except Unit String
  selCount : String → Except Unit Nat
  imgs : Except Unit (List ImgRead)
  greenFrame : String → Bool

/-- One badge-selector probe inside its own `try/except: continue`. -/
def badgeHit (c : Card) (sel : String) : Bool :=
  match c.selCount sel with
  | Except.ok n => decide (0 < n)
  | Except.error _ => false

/-- The body of the per-image loop (methods 4 and 5), inside its own
`try/except: continue`: attribute scan first, then the green-frame probe
guarded by the thumbnail heuristic. -/
def imgStep (green : String → Bool) (img : ImgRead) : Bool :=
  match img.src with
  | Except.error _ => false
  | Except.ok src =>
    match img.alt with
    | Except.error _ => false
    | Except.ok alt =>
      if OPEN_TO_WORK_INDICATORS.any (fun ind => containsSub (lowerStr (src ++ alt)) ind) then
        true
      else if (!src.isEmpty) && (containsSub src "profile" || containsSub src "media.licdn")
              && containsSub src "100_100" then
        green src
      else false

/-- Embeds `OpenToWorkDetector.detect_from_card`.  The whole body sits in one
`try/except Exception: return False`: a raising `inner_html()` read or a
raising `img` enumeration ends the classification with `False`, while a
raising single selector probe or single image read only skips that probe. -/
def detect_from_card (c : Card) : Bool :=
  match c.innerHtml with
  | Except.error _ => false
  | Except.ok rawHtml =>
    let card_html := lowerStr rawHtml
    if OPEN_TO_WORK_INDICATORS.any (fun ind => containsSub card_html ind) then true
    else if BADGE_SELECTORS.any (fun sel => badgeHit c sel) then true
    else if PHOTO_FRAME_INDICATORS.any (fun ind => containsSub card_html ind) then true
    else
      match c.imgs with
      | Except.error _ => false
      | Except.ok imgs => imgs.any (imgStep c.greenFrame)

/-! #### The five signals, as predicates of a card

Signal 1 scans the lower-cased markup for the text indicators; signal 2
is a successful badge-selector match; signal 3 scans the markup for the
photo-frame indicators; signal 4 is a successful image attribute match;
signal 5 is a successful green-ring detection on a thumbnail-looking
profile photo whose reads succeed. -/

def textSignal (c : Card) : Bool :=
  match c.innerHtml with
  | Except.ok h => OPEN_TO_WORK_INDICATORS.any (fun ind => containsSub (lowerStr h) ind)
  | Except.error _ => false

def badgeSignal (c : Card) : Bool :=
  BADGE_SELECTORS.any (fun sel => badgeHit c sel)

def frameSignal (c : Card) : Bool :=
  match c.innerHtml with
  | Except.ok h => PHOTO_FRAME_INDICATORS.any (fun ind => containsSub (lowerStr h) ind)
  | Except.error _ => false

def imgAttrHit (img : ImgRead) : Bool :=
  match img.src, img.alt with
  | Except.ok src, Except.ok alt =>
    OPEN_TO_WORK_INDICATORS.any (fun ind => containsSub (lowerStr (src ++ alt)) ind)
  | _, _ => false

def imgAttrSignal (c : Card) : Bool :=
  match c.imgs with
  | Except.ok imgs => imgs.any imgAttrHit
  | Except.error _ => false

def greenRingHit (green : String → Bool) (img : ImgRead) : Bool :=
  match img.src, img.alt with
  | Except.ok src, Except.ok _ =>
    ((!src.isEmpty) && (containsSub src "profile" || containsSub src "media.licdn")
      && containsSub src "100_100") && green src
  | _, _ => false

def greenRingSignal (c : Card) : Bool :=
  match c.imgs with
  | Except.ok imgs => imgs.any (greenRingHit c.greenFrame)
  | Except.error _ => false

/-! #### concrete cards used as test inputs -/

/-- A card whose markup read raises while every badge-selector probe
reports a match. -/
def cardOuterFail : Card :=
  { innerHtml := Except.error (), selCount := fun _ => Except.ok 1,
    imgs := Except.ok [], greenFrame := fun _ => false }

/-- A card whose markup read and image enumeration raise while every
badge-selector probe reports two matches. -/
def cardReadsFail : Card :=
  { innerHtml := Except.error (), selCount := fun _ => Except.ok 2,
    imgs := Except.error (), greenFrame := fun _ => false }

/-- A card where every DOM read raises. -/
def cardAllFail : Card :=
  { innerHtml := Except.error (), selCount := fun _ => Except.error (),
    imgs := Except.error (), greenFrame := fun _ => false }

/-- A well-behaved card whose markup carries a text indicator and
nothing else. -/
def cardTextHit : Card :=
  { innerHtml := Except.ok "<div>Open To Work</div>",
    selCount := fun _ => Except.error (),
    imgs := Except.error (), greenFrame := fun _ => false }

/-- Two images: one whose reads raise, one carrying an indicator in its
alt text. -/
def imgsLocal : List ImgRead :=
  [{ src := Except.error (), alt := Except.error () },
   { src := Except.ok "x.png", alt := Except.ok "badge opentowork" }]

/-- A well-behaved card with no positive signal in its markup whose first
image read raises and whose second image carries an indicator. -/
def cardImgLocal : Card :=
  { innerHtml := Except.ok "<div>plain</div>",
    selCount := fun _ => Except.ok 0,
    imgs := Except.ok imgsLocal,
    greenFrame := fun _ => false }

/-! ### `ProfileParser.parse_card` and the traversal loop of
`LinkedInScraper.scrape_search_results`

A raw card carries the values the locator fallback chains of `parse_card`
would deliver: the first found name, headline and location texts (empty
string when every selector misses, the per-selector defaults of the
dataclass), and the first truthy `href` of a link selector, if any.
The traversal environment is the list of card lists the successive pages
present; `none` in a card slot stands for a card whose per-card
`try/except: continue` fired (detection or parsing raised), and
pagination succeeds exactly as long as further pages remain.  Navigation,
scrolling, pacing and the progress bar have no effect on the yielded
stream and are not modelled. -/

/-- Python `href.split("?")[0]`: the prefix before the first question
mark, the canonicalized profile URL. -/
def stripQuery (href : String) : String :=
  ⟨href.toList.takeWhile (fun c => c ≠ '?')⟩

/-- The fields of the `ProfileData` dataclass relevant to traversal
(`scraped_at` is a wall-clock timestamp and is not modelled). -/
structure ProfileData where
  first_name : String
  last_name : String
  full_name : String
  headline : String
  current_company : String
  location : String
  profile_url : String
  is_open_to_work : Bool
deriving DecidableEq, Repr

/-- The DOM reads of one result card, after the locator fallback chains. -/
structure RawCard where
  full_name : String
  headline : String
  location : String
  href : Option String
deriving DecidableEq, Repr

/-- Embeds `ProfileParser.parse_card`: build the record from the resolved
fields, derive the name split and the company, canonicalize the link, and
reject the record when both `full_name` and `profile_url` are empty. -/
def parse_card (rc : RawCard) (is_open_to_work : Bool) : Option ProfileData :=
  let url : String :=
    match rc.href with
    | none => ""
    | some h => stripQuery h
  let names : String × String :=
    if rc.full_name ≠ "" then parse_name rc.full_name else ("", "")
  let company : String :=
    if rc.headline ≠ "" then extract_company_from_headline rc.headline else ""
  if rc.full_name = "" ∧ url = "" then none
  else
    some { first_name := names.1, last_name := names.2,
           full_name := rc.full_name, headline := rc.headline,
           current_company := company, location := rc.location,
           profile_url := url, is_open_to_work := is_open_to_work }

/-- The mutable state of one `scrape_search_results` run, together with
the stream of profiles yielded so far (in order). -/
structure TraversalState where
  collected : Nat
  total : Nat
  seen : List String
  out : List ProfileData
deriving DecidableEq, Repr

/-- The per-record location check of the traversal:
`search_loc in profile_loc or profile_loc in search_loc` on lower-cased
strings, trivially true when no location was requested (`if location:`
with a falsy empty string). -/
def locationMatch (loc : Option String) (p : ProfileData) : Bool :=
  match loc with
  | none => true
  | some l => containsSub (lowerStr p.location) (lowerStr l)
              || containsSub (lowerStr l) (lowerStr p.location)

/-- The acceptance test applied to a fresh record:
`location_match and (not open_to_work_only or profile.is_open_to_work)`. -/
def accepts (loc : Option String) (openToWorkOnly : Bool) (p : ProfileData) : Bool :=
  locationMatch loc p && (!openToWorkOnly || p.is_open_to_work)

/-- One iteration of the per-card loop body (after the
`collected_count >= max_profiles` break check): parse, skip on failure or
on a seen URL, otherwise record the URL, bump the scan counter, and yield
on acceptance. -/
def stepCard (loc : Option String) (openToWorkOnly : Bool)
    (s : TraversalState) (c : Option (RawCard × Bool)) : TraversalState :=
  match c with
  | none => s
  | some (rc, isOpen) =>
    match parse_card rc isOpen with
    | none => s
    | some p =>
      if p.profile_url ∈ s.seen then s
      else
        let s1 : TraversalState :=
          { s with seen := p.profile_url :: s.seen, total := s.total + 1 }
        if accepts loc openToWorkOnly p then
          { s1 with collected := s1.collected + 1, out := s1.out ++ [p] }
        else s1

/-- The per-card loop over one page: each iteration first breaks when
`collected_count >= max_profiles`, then runs `stepCard`. -/
def runCards (loc : Option String) (openToWorkOnly : Bool) (maxProfiles : Nat) :
    List (Option (RawCard × Bool)) → TraversalState → TraversalState
  | [], s => s
  | c :: rest, s =>
    if maxProfiles ≤ s.collected then s
    else runCards loc openToWorkOnly maxProfiles rest (stepCard loc openToWorkOnly s c)

/-- The page loop: the `while collected_count < max_profiles` condition,
the `total_scraped >= MAX_PROFILES_PER_SESSION` break, the empty-page
break, the card loop, and the `_go_to_next_page` break (pagination fails
exactly when no further page remains, which makes the recursive call on
the empty remainder return unchanged, like the `break`). -/
def runPages (loc : Option String) (openToWorkOnly : Bool)
    (maxProfiles sessionCeiling : Nat) :
    List (List (Option (RawCard × Bool))) → TraversalState → TraversalState
  | [], s => s
  | pg :: rest, s =>
    if maxProfiles ≤ s.collected then s
    else if sessionCeiling ≤ s.total then s
    else if pg.isEmpty then s
    else runPages loc openToWorkOnly maxProfiles sessionCeiling rest
           (runCards loc openToWorkOnly maxProfiles pg s)

/-- Embeds the traversal of `LinkedInScraper.scrape_search_results` from
fresh counters, an empty seen set and an empty output stream. -/
def scrape_search_results (loc : Option String) (openToWorkOnly : Bool)
    (maxProfiles sessionCeiling : Nat)
    (pages : List (List (Option (RawCard × Bool)))) : TraversalState :=
  runPages loc openToWorkOnly maxProfiles sessionCeiling pages
    ⟨0, 0, [], []⟩

/-! #### concrete raw cards and environments used as test inputs -/

/-- A card whose link carries a query string. -/
def rcA : RawCard :=
  { full_name := "Ann A", headline := "", location := "",
    href := some "https://l/in/ann?x=1" }

/-- A second distinct card. -/
def rcB : RawCard :=
  { full_name := "Bob B", headline := "", location := "",
    href := some "https://l/in/bob" }

/-- A third distinct card. -/
def rcC : RawCard :=
  { full_name := "Cy C", headline := "", location := "",
    href := some "https://l/in/cy" }

/-- A card located in London. -/
def rcLondon : RawCard :=
  { full_name := "John Doe", headline := "", location := "London",
    href := some "https://l/in/john" }

/-- A valid card with a name but no resolvable link. -/
def rcNoLink : RawCard :=
  { full_name := "Jane Roe", headline := "", location := "", href := none }

/-- The record `parse_card` produces for `rcB`. -/
def pBdata : ProfileData :=
  { first_name := "Bob", last_name := "B", full_name := "Bob B",
    headline := "", current_company := "", location := "",
    profile_url := "https://l/in/bob", is_open_to_work := true }

/-- One page holding three distinct parsable cards. -/
def pagesOverCeiling : List (List (Option (RawCard × Bool))) :=
  [[some (rcA, true), some (rcB, true), some (rcC, true)]]

/-- One page holding the London card. -/
def pagesLondon : List (List (Option (RawCard × Bool))) :=
  [[some (rcLondon, true)]]

/-- The dedup invariant carried by every traversal state: the seen set
has no duplicates, the yielded records have pairwise distinct URLs, and
every yielded URL has been recorded as seen. -/
def GoodState (s : TraversalState) : Prop :=
  s.seen.Nodup ∧ (s.out.map ProfileData.profile_url).Nodup ∧
    ∀ p ∈ s.out, p.profile_url ∈ s.seen

/-! ### auxiliary lemmas about splitting -/

theorem splitSp_ne_nil (cs : List Char) : splitSp cs ≠ [] := by
  cases cs with
  | nil => simp [splitSp]
  | cons c rest =>
    simp only [splitSp]
    by_cases h : c = ' '
    · simp [h]
    · simp only [if_neg h]
      cases splitSp rest <;> simp

theorem joinSp_splitSp (cs : List Char) : joinSp (splitSp cs) = cs := by
  induction cs with
  | nil => simp [splitSp, joinSp]
  | cons c rest ih =>
    simp only [splitSp]
    by_cases h : c = ' '
    · simp only [if_pos h]
      rcases hs : splitSp rest with _ | ⟨t, ts⟩
      · exact absurd hs (splitSp_ne_nil rest)
      · rw [hs] at ih
        simp [joinSp, ih, h]
    · simp only [if_neg h]
      rcases hs : splitSp rest with _ | ⟨t, ts⟩
      · exact absurd hs (splitSp_ne_nil rest)
      · rw [hs] at ih
        cases ts with
        | nil => simpa [joinSp] using ih
        | cons u us => simpa [joinSp] using ih

theorem string_mk_append (a b : List Char) :
    (String.mk a ++ String.mk b : String) = String.mk (a ++ b) := rfl

/-! ### traversal invariant lemmas -/

theorem seen_subset_stepCard (loc : Option String) (otw : Bool)
    (s : TraversalState) (c : Option (RawCard × Bool)) :
    ∀ u ∈ s.seen, u ∈ (stepCard loc otw s c).seen := by
  intro u hu
  cases c with
  | none => exact hu
  | some rcb =>
    obtain ⟨rc, b⟩ := rcb
    simp only [stepCard]
    cases parse_card rc b with
    | none => exact hu
    | some p =>
      by_cases hmem : p.profile_url ∈ s.seen
      · simp only [if_pos hmem]; exact hu
      · simp only [if_neg hmem]
        by_cases hacc : accepts loc otw p = true
        · simp [hacc, List.mem_cons, hu]
        · simp [hacc, List.mem_cons, hu]

theorem stepCard_good (loc : Option String) (otw : Bool)
    (s : TraversalState) (c : Option (RawCard × Bool))
    (h : GoodState s) : GoodState (stepCard loc otw s c) := by
  obtain ⟨h1, h2, h3⟩ := h
  cases c with
  | none => exact ⟨h1, h2, h3⟩
  | some rcb =>
    obtain ⟨rc, b⟩ := rcb
    simp only [stepCard]
    cases parse_card rc b with
    | none => exact ⟨h1, h2, h3⟩
    | some p =>
      by_cases hmem : p.profile_url ∈ s.seen
      · simp only [if_pos hmem]; exact ⟨h1, h2, h3⟩
      · simp only [if_neg hmem]
        have hnotmap : p.profile_url ∉ s.out.map ProfileData.profile_url := by
          intro hin
          rcases List.mem_map.mp hin with ⟨q, hq, hqe⟩
          exact hmem (hqe ▸ h3 q hq)
        by_cases hacc : accepts loc otw p = true
        · simp only [hacc, if_true]
          refine ⟨List.nodup_cons.mpr ⟨hmem, h1⟩, ?_, ?_⟩
          · rw [List.map_append]
            refine List.Nodup.append h2 (by simp) ?_
            intro u hu1 hu2
            simp only [List.map_cons, List.map_nil, List.mem_singleton] at hu2
            exact hnotmap (hu2 ▸ hu1)
          · intro q hq
            rcases List.mem_append.mp hq with hql | hqr
            · exact List.mem_cons_of_mem _ (h3 q hql)
            · simp only [List.mem_singleton] at hqr
              subst hqr
              exact List.mem_cons_self _ _
        · simp only [hacc, if_false]
          refine ⟨List.nodup_cons.mpr ⟨hmem, h1⟩, h2, ?_⟩
          intro q hq
          exact List.mem_cons_of_mem _ (h3 q hq)

theorem runCards_good (loc : Option String) (otw : Bool) (m : Nat)
    (cards : List (Option (RawCard × Bool))) :
    ∀ s : TraversalState, GoodState s → GoodState (runCards loc otw m cards s) := by
  induction cards with
  | nil => intro s hs; exact hs
  | cons c rest ih =>
    intro s hs
    simp only [runCards]
    by_cases hstop : m ≤ s.collected
    · simp only [if_pos hstop]; exact hs
    · simp only [if_neg hstop]
      exact ih _ (stepCard_good loc otw s c hs)

theorem runPages_good (loc : Option String) (otw : Bool) (m cl : Nat)
    (pages : List (List (Option (RawCard × Bool)))) :
    ∀ s : TraversalState, GoodState s → GoodState (runPages loc otw m cl pages s) := by
  induction pages with
  | nil => intro s hs; exact hs
  | cons pg rest ih =>
    intro s hs
    simp only [runPages]
    by_cases h1 : m ≤ s.collected
    · simp only [if_pos h1]; exact hs
    · simp only [if_neg h1]
      by_cases h2 : cl ≤ s.total
      · simp only [if_pos h2]; exact hs
      · simp only [if_neg h2]
        by_cases h3 : pg.isEmpty = true
        · simp only [h3, if_true]; exact hs
        · simp only [h3, if_false]
          exact ih _ (runCards_good loc otw m pg s hs)

theorem scrape_good (loc : Option String) (otw : Bool) (m cl : Nat)
    (pages : List (List (Option (RawCard × Bool)))) :
    GoodState (scrape_search_results loc otw m cl pages) := by
  refine runPages_good loc otw m cl pages _ ⟨List.nodup_nil, ?_, ?_⟩ <;> simp

/-! ### counter lemmas -/

theorem stepCard_collected_le (loc : Option String) (otw : Bool)
    (s : TraversalState) (c : Option (RawCard × Bool)) :
    (stepCard loc otw s c).collected ≤ s.collected + 1 := by
  cases c with
  | none => exact Nat.le_succ _
  | some rcb =>
    obtain ⟨rc, b⟩ := rcb
    simp only [stepCard]
    cases parse_card rc b with
    | none => exact Nat.le_succ _
    | some p =>
      by_cases hmem : p.profile_url ∈ s.seen
      · simp only [if_pos hmem]; exact Nat.le_succ _
      · simp only [if_neg hmem]
        by_cases hacc : accepts loc otw p = true
        · simp [hacc]
        · simp [hacc]

theorem stepCard_total_le (loc : Option String) (otw : Bool)
    (s : TraversalState) (c : Option (RawCard × Bool)) :
    (stepCard loc otw s c).total ≤ s.total + 1 := by
  cases c with
  | none => exact Nat.le_succ _
  | some rcb =>
    obtain ⟨rc, b⟩ := rcb
    simp only [stepCard]
    cases parse_card rc b with
    | none => exact Nat.le_succ _
    | some p =>
      by_cases hmem : p.profile_url ∈ s.seen
      · simp only [if_pos hmem]; exact Nat.le_succ _
      · simp only [if_neg hmem]
        by_cases hacc : accepts loc otw p = true
        · simp [hacc]
        · simp [hacc]

theorem stepCard_out_collected (loc : Option String) (otw : Bool)
    (s : TraversalState) (c : Option (RawCard × Bool))
    (h : s.out.length = s.collected) :
    (stepCard loc otw s c).out.length = (stepCard loc otw s c).collected := by
  cases c with
  | none => exact h
  | some rcb =>
    obtain ⟨rc, b⟩ := rcb
    simp only [stepCard]
    cases parse_card rc b with
    | none => exact h
    | some p =>
      by_cases hmem : p.profile_url ∈ s.seen
      · simp only [if_pos hmem]; exact h
      · simp only [if_neg hmem]
        by_cases hacc : accepts loc otw p = true
        · simp [hacc, h]
        · simp [hacc, h]

theorem runCards_collected_le (loc : Option String) (otw : Bool) (m : Nat)
    (cards : List (Option (RawCard × Bool))) :
    ∀ s : TraversalState, s.collected ≤ m →
      (runCards loc otw m cards s).collected ≤ m := by
  induction cards with
  | nil => intro s hs; exact hs
  | cons c rest ih =>
    intro s hs
    simp only [runCards]
    by_cases hstop : m ≤ s.collected
    · simp only [if_pos hstop]; exact hs
    · simp only [if_neg hstop]
      refine ih _ ?_
      have := stepCard_collected_le loc otw s c
      omega

theorem runCards_total_le (loc : Option String) (otw : Bool) (m : Nat)
    (cards : List (Option (RawCard × Bool))) :
    ∀ s : TraversalState,
      (runCards loc otw m cards s).total ≤ s.total + cards.length := by
  induction cards with
  | nil => intro s; simp [runCards]
  | cons c rest ih =>
    intro s
    simp only [runCards]
    by_cases hstop : m ≤ s.collected
    · simp only [if_pos hstop, List.length_cons]; omega
    · simp only [if_neg hstop, List.length_cons]
      have h1 := ih (stepCard loc otw s c)
      have h2 := stepCard_total_le loc otw s c
      omega

theorem runCards_out_collected (loc : Option String) (otw : Bool) (m : Nat)
    (cards : List (Option (RawCard × Bool))) :
    ∀ s : TraversalState, s.out.length = s.collected →
      (runCards loc otw m cards s).out.length = (runCards loc otw m cards s).collected := by
  induction cards with
  | nil => intro s hs; exact hs
  | cons c rest ih =>
    intro s hs
    simp only [runCards]
    by_cases hstop : m ≤ s.collected
    · simp only [if_pos hstop]; exact hs
    · simp only [if_neg hstop]
      exact ih _ (stepCard_out_collected loc otw s c hs)

theorem runCards_id_of_max (loc : Option String) (otw : Bool) (m : Nat)
    (cards : List (Option (RawCard × Bool))) (s : TraversalState)
    (h : m ≤ s.collected) : runCards loc otw m cards s = s := by
  cases cards with
  | nil => rfl
  | cons c rest => simp [runCards, if_pos h]

theorem runPages_collected_le (loc : Option String) (otw : Bool) (m cl : Nat)
    (pages : List (List (Option (RawCard × Bool)))) :
    ∀ s : TraversalState, s.collected ≤ m →
      (runPages loc otw m cl pages s).collected ≤ m := by
  induction pages with
  | nil => intro s hs; exact hs
  | cons pg rest ih =>
    intro s hs
    simp only [runPages]
    by_cases h1 : m ≤ s.collected
    · simp only [if_pos h1]; exact hs
    · simp only [if_neg h1]
      by_cases h2 : cl ≤ s.total
      · simp only [if_pos h2]; exact hs
      · simp only [if_neg h2]
        by_cases h3 : pg.isEmpty = true
        · simp only [h3, if_true]; exact hs
        · simp only [h3, if_false]
          exact ih _ (runCards_collected_le loc otw m pg s hs)

theorem runPages_out_collected (loc : Option String) (otw : Bool) (m cl : Nat)
    (pages : List (List (Option (RawCard × Bool)))) :
    ∀ s : TraversalState, s.out.length = s.collected →
      (runPages loc otw m cl pages s).out.length =
        (runPages loc otw m cl pages s).collected := by
  induction pages with
  | nil => intro s hs; exact hs
  | cons pg rest ih =>
    intro s hs
    simp only [runPages]
    by_cases h1 : m ≤ s.collected
    · simp only [if_pos h1]; exact hs
    · simp only [if_neg h1]
      by_cases h2 : cl ≤ s.total
      · simp only [if_pos h2]; exact hs
      · simp only [if_neg h2]
        by_cases h3 : pg.isEmpty = true
        · simp only [h3, if_true]; exact hs
        · simp only [h3, if_false]
          exact ih _ (runCards_out_collected loc otw m pg s hs)

theorem runPages_id_of_max (loc : Option String) (otw : Bool) (m cl : Nat)
    (pages : List (List (Option (RawCard × Bool)))) (s : TraversalState)
    (h : m ≤ s.collected) : runPages loc otw m cl pages s = s := by
  cases pages with
  | nil => rfl
  | cons pg rest => simp [runPages, if_pos h]

theorem runPages_id_of_ceiling (loc : Option String) (otw : Bool) (m cl : Nat)
    (pages : List (List (Option (RawCard × Bool)))) (s : TraversalState)
    (h : cl ≤ s.total) : runPages loc otw m cl pages s = s := by
  cases pages with
  | nil => rfl
  | cons pg rest =>
    simp only [runPages]
    by_cases h1 : m ≤ s.collected
    · simp only [if_pos h1]
    · simp only [if_neg h1, if_pos h]

theorem runPages_total_bound (loc : Option String) (otw : Bool) (m cl bnd : Nat)
    (pages : List (List (Option (RawCard × Bool))))
    (hK : ∀ pg ∈ pages, pg.length ≤ bnd) :
    ∀ s : TraversalState,
      (runPages loc otw m cl pages s).total ≤ max s.total (cl - 1 + bnd) := by
  induction pages with
  | nil => intro s; exact le_max_left _ _
  | cons pg rest ih =>
    intro s
    simp only [runPages]
    by_cases h1 : m ≤ s.collected
    · simp only [if_pos h1]; exact le_max_left _ _
    · simp only [if_neg h1]
      by_cases h2 : cl ≤ s.total
      · simp only [if_pos h2]; exact le_max_left _ _
      · simp only [if_neg h2]
        by_cases h3 : pg.isEmpty = true
        · simp only [h3, if_true]; exact le_max_left _ _
        · simp only [h3, if_false]
          have hKrest : ∀ q ∈ rest, q.length ≤ bnd := by
            intro q hq; exact hK q (List.mem_cons_of_mem _ hq)
          have hKpg : pg.length ≤ bnd := hK pg (List.mem_cons_self _ _)
          have hc := runCards_total_le loc otw m pg s
          have hi := ih hKrest (runCards loc otw m pg s)
          have hlt : s.total < cl := Nat.lt_of_not_le h2
          have : (runCards loc otw m pg s).total ≤ cl - 1 + bnd := by omega
          calc (runPages loc otw m cl rest (runCards loc otw m pg s)).total
              ≤ max (runCards loc otw m pg s).total (cl - 1 + bnd) := hi
            _ ≤ cl - 1 + bnd := by omega
            _ ≤ max s.total (cl - 1 + bnd) := le_max_right _ _

/-- In a list whose image under `f` has no duplicates, at most one
element can map to any given value. -/
theorem filter_eq_le_one {α β : Type} [DecidableEq β] (f : α → β) (a : β) :
    ∀ l : List α, (l.map f).Nodup →
      (l.filter (fun x => f x = a)).length ≤ 1 := by
  intro l
  induction l with
  | nil => intro _; simp
  | cons x t ih =>
    intro h
    rw [List.map_cons, List.nodup_cons] at h
    obtain ⟨hx, ht⟩ := h
    by_cases hfx : f x = a
    · have : t.filter (fun y => f y = a) = [] := by
        rw [List.filter_eq_nil_iff]
        intro y hy
        simp only [decide_eq_true_eq]
        intro hya
        exact hx (List.mem_map.mpr ⟨y, hy, by rw [hya, hfx]⟩)
      simp [List.filter_cons, hfx, this]
    · simpa [List.filter_cons, hfx] using ih ht

/-! ### detector lemmas -/

theorem imgStep_of_attrHit (green : String → Bool) (img : ImgRead)
    (h : imgAttrHit img = true) : imgStep green img = true := by
  cases hsrc : img.src with
  | error e => simp [imgAttrHit, hsrc] at h
  | ok src =>
    cases halt : img.alt with
    | error e => simp [imgAttrHit, hsrc, halt] at h
    | ok alt =>
      simp only [imgAttrHit, hsrc, halt] at h
      simp [imgStep, hsrc, halt, h]

theorem imgStep_of_ringHit (green : String → Bool) (img : ImgRead)
    (h : greenRingHit green img = true) : imgStep green img = true := by
  cases hsrc : img.src with
  | error e => simp [greenRingHit, hsrc] at h
  | ok src =>
    cases halt : img.alt with
    | error e => simp [greenRingHit, hsrc, halt] at h
    | ok alt =>
      simp only [greenRingHit, hsrc, halt, Bool.and_eq_true] at h
      obtain ⟨hcond, hgreen⟩ := h
      by_cases hany : OPEN_TO_WORK_INDICATORS.any
          (fun ind => containsSub (lowerStr (src ++ alt)) ind) = true
      · simp [imgStep, hsrc, halt, hany]
      · simp only [imgStep, hsrc, halt]
        rw [if_neg (by simpa using hany), if_pos (by simpa [Bool.and_eq_true] using hcond)]
        exact hgreen

theorem detect_of_imgAny (c : Card) (h : String) (imgs : List ImgRead)
    (hh : c.innerHtml = Except.ok h) (hi : c.imgs = Except.ok imgs)
    (ha : imgs.any (imgStep c.greenFrame) = true) :
    detect_from_card c = true := by
  simp only [detect_from_card, hh, hi]
  by_cases hA : OPEN_TO_WORK_INDICATORS.any (fun ind => containsSub (lowerStr h) ind) = true
  · simp [hA]
  · by_cases hB : BADGE_SELECTORS.any (fun sel => badgeHit c sel) = true
    · simp [hA, hB]
    · by_cases hC : PHOTO_FRAME_INDICATORS.any (fun ind => containsSub (lowerStr h) ind) = true
      · simp [hA, hB, hC]
      · simp [hA, hB, hC, ha]

theorem detect_of_signals (c : Card) (h : String)
    (hh : c.innerHtml = Except.ok h)
    (hs : (textSignal c || badgeSignal c || frameSignal c
            || imgAttrSignal c || greenRingSignal c) = true) :
    detect_from_card c = true := by
  simp only [textSignal, badgeSignal, frameSignal, imgAttrSignal, greenRingSignal, hh,
    Bool.or_eq_true] at hs
  cases himgs : c.imgs with
  | error e =>
    rw [himgs] at hs
    simp only [detect_from_card, hh, himgs]
    rcases hs with ((⟨h1 | h2⟩ | h3) | h4) | h5
    · simp [h1]
    · simp [h2]
    · by_cases hA : OPEN_TO_WORK_INDICATORS.any (fun ind => containsSub (lowerStr h) ind) = true
      · simp [hA]
      · by_cases hB : BADGE_SELECTORS.any (fun sel => badgeHit c sel) = true
        · simp [hA, hB]
        · simp [hA, hB, h3]
    · simp at h4
    · simp at h5
  | ok imgs =>
    rw [himgs] at hs
    rcases hs with ((⟨h1 | h2⟩ | h3) | h4) | h5
    · simp [detect_from_card, hh, h1]
    · simp [detect_from_card, hh, h2]
    · simp only [detect_from_card, hh]
      by_cases hA : OPEN_TO_WORK_INDICATORS.any (fun ind => containsSub (lowerStr h) ind) = true
      · simp [hA]
      · by_cases hB : BADGE_SELECTORS.any (fun sel => badgeHit c sel) = true
        · simp [hA, hB]
        · simp [hA, hB, h3]
    · rcases List.any_eq_true.mp h4 with ⟨img, hmem, hhit⟩
      exact detect_of_imgAny c h imgs hh himgs
        (List.any_eq_true.mpr ⟨img, hmem, imgStep_of_attrHit _ img hhit⟩)
    · rcases List.any_eq_true.mp h5 with ⟨img, hmem, hhit⟩
      exact detect_of_imgAny c h imgs hh himgs
        (List.any_eq_true.mpr ⟨img, hmem, imgStep_of_ringHit _ img hhit⟩)

theorem detect_false_of_innerHtml_error (c : Card) (e : Unit)
    (hh : c.innerHtml = Except.error e) : detect_from_card c = false := by
  simp [detect_from_card, hh]

theorem detect_false_of_imgs_error (c : Card) (h : String) (e : Unit)
    (hh : c.innerHtml = Except.ok h) (hi : c.imgs = Except.error e)
    (h1 : textSignal c = false) (h2 : badgeSignal c = false)
    (h3 : frameSignal c = false) : detect_from_card c = false := by
  simp only [textSignal, hh] at h1
  simp only [badgeSignal] at h2
  simp only [frameSignal, hh] at h3
  simp [detect_from_card, hh, hi, h1, h2, h3]

/-- A record parsed from a card without a resolvable link keeps the
empty canonical URL. -/
theorem parse_card_linkless_url (rc : RawCard) (b : Bool) (p : ProfileData)
    (h0 : rc.href = none) (hp : parse_card rc b = some p) :
    p.profile_url = "" := by
  simp only [parse_card, h0] at hp
  by_cases hn : rc.full_name = ""
  · simp [hn] at hp
  · rw [if_neg (by simp [hn])] at hp
    cases hp
    rfl

/-! ### claim theorems -/

/-- C1: in every traversal run the seen set holds no duplicate entries,
no two yielded records share a `profile_url` (the href canonicalized by
dropping everything from the first question mark, as built by
`parse_card` via `stripQuery`), and a parsed record whose canonical URL
is already seen is skipped, leaving the state unchanged, so only the
first record with a given URL is kept. -/
theorem C1_dedup_invariant (loc : Option String) (otw : Bool) (m cl : Nat)
    (pages : List (List (Option (RawCard × Bool)))) :
    (scrape_search_results loc otw m cl pages).seen.Nodup ∧
    ((scrape_search_results loc otw m cl pages).out.map ProfileData.profile_url).Nodup ∧
    (∀ (s : TraversalState) (rc : RawCard) (b : Bool) (p : ProfileData),
      parse_card rc b = some p → p.profile_url ∈ s.seen →
      stepCard loc otw s (some (rc, b)) = s) := by
  refine ⟨(scrape_good loc otw m cl pages).1, (scrape_good loc otw m cl pages).2.1, ?_⟩
  intro s rc b p hp hm
  simp [stepCard, hp, if_pos hm]

/-- Witness for C1: a card whose canonical URL is already seen leaves the
state untouched. -/
theorem C1_dedup_invariant_witness :
    stepCard none false ⟨1, 1, ["https://l/in/ann"], []⟩ (some (rcA, true)) =
      ⟨1, 1, ["https://l/in/ann"], []⟩ := by
  refine (C1_dedup_invariant none false 5 100 []).2.2
    ⟨1, 1, ["https://l/in/ann"], []⟩ rcA true
    { first_name := "Ann", last_name := "A", full_name := "Ann A",
      headline := "", current_company := "", location := "",
      profile_url := "https://l/in/ann", is_open_to_work := true }
    (by decide) (by decide)

/-- C2 as stated is false: the session ceiling is only compared against
`total_scraped` at the start of a page iteration, so inside one page the
counter passes the ceiling and records are still yielded afterwards.
With ceiling 1 and one page of three distinct cards, the run scans three
cards (strictly more than the ceiling) and yields all three. -/
theorem C2_ceiling_counterexample :
    (scrape_search_results none false 10 1 pagesOverCeiling).total = 3 ∧
    ¬ ((scrape_search_results none false 10 1 pagesOverCeiling).total ≤ 1) ∧
    (scrape_search_results none false 10 1 pagesOverCeiling).out.length = 3 := by
  decide

/-- C2 amended: the ceiling is enforced at page boundaries only.  In any
run whose pages each hold at most `bnd` cards, the final scan counter is
at most `ceiling - 1 + bnd`, and once the counter has reached the ceiling
the page loop stops immediately, emitting nothing further. -/
theorem C2_page_boundary_ceiling (loc : Option String) (otw : Bool)
    (m cl bnd : Nat) (pages : List (List (Option (RawCard × Bool))))
    (hK : ∀ pg ∈ pages, pg.length ≤ bnd) :
    (scrape_search_results loc otw m cl pages).total ≤ cl - 1 + bnd ∧
    (∀ (s : TraversalState) (rest : List (List (Option (RawCard × Bool)))),
      cl ≤ s.total → runPages loc otw m cl rest s = s) := by
  constructor
  · have h := runPages_total_bound loc otw m cl bnd pages hK ⟨0, 0, [], []⟩
    simpa [scrape_search_results] using h
  · intro s rest h
    exact runPages_id_of_ceiling loc otw m cl rest s h

/-- Witness for C2 amended at a concrete environment. -/
theorem C2_page_boundary_ceiling_witness :
    (scrape_search_results none false 10 1 pagesOverCeiling).total ≤ 1 - 1 + 3 ∧
    runPages none false 10 1 pagesOverCeiling ⟨0, 5, [], []⟩ = ⟨0, 5, [], []⟩ := by
  refine ⟨(C2_page_boundary_ceiling none false 10 1 3 pagesOverCeiling ?_).1,
          (C2_page_boundary_ceiling none false 10 1 3 pagesOverCeiling ?_).2
            ⟨0, 5, [], []⟩ pagesOverCeiling (by decide)⟩ <;> decide

/-- C3 as stated is false: the requested location is also a per-record
acceptance condition.  With filtering disabled and location "Paris", a
successfully extracted, unseen card located in London is not yielded. -/
theorem C3_location_counterexample :
    (parse_card rcLondon true).isSome = true ∧
    (scrape_search_results (some "Paris") false 5 100 pagesLondon).out = [] := by
  decide

/-- C3 amended: a successfully extracted record with an unseen canonical
URL is yielded if and only if the lower-cased requested location and
record location contain one another (trivially true when no location is
requested) and, in addition, filtering is disabled or the record is
open-to-work. -/
theorem C3_acceptance_characterized (loc : Option String) (otw : Bool)
    (s : TraversalState) (rc : RawCard) (b : Bool) (p : ProfileData)
    (hp : parse_card rc b = some p) (hm : p.profile_url ∉ s.seen) :
    (stepCard loc otw s (some (rc, b))).out = s.out ++ [p] ↔
      (locationMatch loc p && (!otw || p.is_open_to_work)) = true := by
  have hacc : accepts loc otw p = (locationMatch loc p && (!otw || p.is_open_to_work)) := rfl
  simp only [stepCard, hp]
  rw [if_neg hm]
  by_cases ha : accepts loc otw p = true
  · rw [if_pos ha, ← hacc]
    simp [ha]
  · rw [if_neg ha, ← hacc]
    constructor
    · intro habs
      exact absurd habs (by simp)
    · intro h
      exact absurd h ha

/-- Witness for C3 amended: with no location requested and filtering off,
a fresh parsable card is yielded. -/
theorem C3_acceptance_characterized_witness :
    (stepCard none false ⟨0, 0, [], []⟩ (some (rcB, true))).out = [] ++ [pBdata] := by
  refine (C3_acceptance_characterized none false ⟨0, 0, [], []⟩ rcB true pBdata
    (by decide) (by decide)).mpr (by decide)

/-- C4: the collected counter never passes the requested maximum (also
from any intermediate state already within the bound), the yielded
stream always holds exactly `collected` records and so at most the
maximum, and reaching the maximum stops both the card loop and the page
loop unchanged. -/
theorem C4_collected_bound (loc : Option String) (otw : Bool) (m cl : Nat)
    (pages : List (List (Option (RawCard × Bool)))) :
    (scrape_search_results loc otw m cl pages).collected ≤ m ∧
    (scrape_search_results loc otw m cl pages).out.length ≤ m ∧
    (∀ s : TraversalState, s.collected ≤ m →
      (runPages loc otw m cl pages s).collected ≤ m) ∧
    (∀ (s : TraversalState) (cards : List (Option (RawCard × Bool))),
      m ≤ s.collected → runCards loc otw m cards s = s) ∧
    (∀ s : TraversalState, m ≤ s.collected →
      runPages loc otw m cl pages s = s) := by
  have hcoll : (scrape_search_results loc otw m cl pages).collected ≤ m :=
    runPages_collected_le loc otw m cl pages _ (Nat.zero_le m)
  have hlen : (scrape_search_results loc otw m cl pages).out.length =
      (scrape_search_results loc otw m cl pages).collected :=
    runPages_out_collected loc otw m cl pages _ rfl
  refine ⟨hcoll, by rw [hlen]; exact hcoll, ?_, ?_, ?_⟩
  · intro s hs; exact runPages_collected_le loc otw m cl pages s hs
  · intro s cards hs; exact runCards_id_of_max loc otw m cards s hs
  · intro s hs; exact runPages_id_of_max loc otw m cl pages s hs

/-- Witness for C4 at a concrete environment and state. -/
theorem C4_collected_bound_witness :
    (runPages none false 3 100 pagesOverCeiling ⟨3, 0, [], []⟩).collected ≤ 3 ∧
    runCards none false 3 [some (rcA, true)] ⟨5, 0, [], []⟩ = ⟨5, 0, [], []⟩ := by
  refine ⟨(C4_collected_bound none false 3 100 pagesOverCeiling).2.2.1
            ⟨3, 0, [], []⟩ (by decide),
          (C4_collected_bound none false 3 100 pagesOverCeiling).2.2.2.1
            ⟨5, 0, [], []⟩ [some (rcA, true)] (by decide)⟩

/-- C10: a link-less but named card parses to a record whose canonical
URL is the empty string; after the first such record is accepted the
empty string sits in the seen set, so every later link-less card is
skipped as a duplicate, and in any run at most one yielded record has an
empty `profile_url`. -/
theorem C10_linkless_dedup (loc : Option String) (otw : Bool) (m cl : Nat)
    (pages : List (List (Option (RawCard × Bool)))) :
    ((scrape_search_results loc otw m cl pages).out.filter
        (fun p => p.profile_url = "")).length ≤ 1 ∧
    (∀ (rc : RawCard) (b : Bool), rc.href = none → rc.full_name ≠ "" →
      ∃ p, parse_card rc b = some p ∧ p.profile_url = "") ∧
    (∀ (s : TraversalState) (rc : RawCard) (b : Bool),
      rc.href = none → ("" : String) ∈ s.seen →
      stepCard loc otw s (some (rc, b)) = s) := by
  refine ⟨?_, ?_, ?_⟩
  · exact filter_eq_le_one ProfileData.profile_url "" _
      (scrape_good loc otw m cl pages).2.1
  · intro rc b h0 h1
    simp only [parse_card, h0]
    rw [if_neg (by simp [h1])]
    exact ⟨_, rfl, rfl⟩
  · intro s rc b h0 hseen
    cases hp : parse_card rc b with
    | none => simp [stepCard, hp]
    | some p =>
      have hurl : p.profile_url = "" := parse_card_linkless_url rc b p h0 hp
      simp [stepCard, hp, if_pos (hurl ▸ hseen)]

/-- Witness for C10: the concrete link-less card parses to an
empty-URL record, and is skipped once the empty URL is seen. -/
theorem C10_linkless_dedup_witness :
    (∃ p, parse_card rcNoLink true = some p ∧ p.profile_url = "") ∧
    stepCard none false ⟨1, 1, [""], []⟩ (some (rcNoLink, false)) =
      ⟨1, 1, [""], []⟩ := by
  refine ⟨(C10_linkless_dedup none false 5 100 []).2.1 rcNoLink true rfl (by decide),
          (C10_linkless_dedup none false 5 100 []).2.2
            ⟨1, 1, [""], []⟩ rcNoLink false rfl (by decide)⟩

/-- C5 as stated is false: an exception in a single signal check is not
always contained to that signal.  On a card whose markup read raises
while the badge-selector signal is positive, the outer handler ends the
whole classification with `false` instead of evaluating the remaining
signals. -/
theorem C5_signal_exception_counterexample :
    detect_from_card cardOuterFail = false ∧ badgeSignal cardOuterFail = true := by
  exact ⟨rfl, by decide⟩

/-- C5 amended: `detect_from_card` never raises and its worst case is
`false`; an exception in a single badge-selector probe or a single image
read is treated as negative for that probe only, the remaining probes
and images still being evaluated; but an exception while reading the
inner markup ends the whole classification with `false`, and an
exception while enumerating images ends it with `false` when no earlier
signal fired. -/
theorem C5_exception_containment :
    (∀ (c : Card) (e : Unit), c.innerHtml = Except.error e →
      detect_from_card c = false) ∧
    (∀ (c : Card) (h : String), c.innerHtml = Except.ok h →
      badgeSignal c = true → detect_from_card c = true) ∧
    (∀ (c : Card) (h : String) (imgs : List ImgRead),
      c.innerHtml = Except.ok h → c.imgs = Except.ok imgs →
      imgs.any (imgStep c.greenFrame) = true → detect_from_card c = true) ∧
    (∀ (c : Card) (h : String) (e : Unit),
      c.innerHtml = Except.ok h → c.imgs = Except.error e →
      textSignal c = false → badgeSignal c = false → frameSignal c = false →
      detect_from_card c = false) := by
  refine ⟨?_, ?_, ?_, ?_⟩
  · intro c e hh; exact detect_false_of_innerHtml_error c e hh
  · intro c h hh hb
    exact detect_of_signals c h hh (by simp [hb])
  · intro c h imgs hh hi ha
    exact detect_of_imgAny c h imgs hh hi ha
  · intro c h e hh hi h1 h2 h3
    exact detect_false_of_imgs_error c h e hh hi h1 h2 h3

/-- Witness for C5 amended: the all-raising card classifies to `false`,
and a raising first image does not mask the second image's indicator. -/
theorem C5_exception_containment_witness :
    detect_from_card cardAllFail = false ∧ detect_from_card cardImgLocal = true := by
  refine ⟨C5_exception_containment.1 cardAllFail () rfl,
          C5_exception_containment.2.2.1 cardImgLocal "<div>plain</div>" imgsLocal
            rfl rfl (by decide)⟩

/-- C8 as stated is false for raising card scopes: on a card whose
markup read raises, a positive badge-selector signal does not make
`detect_from_card` return true. -/
theorem C8_monotonicity_counterexample :
    badgeSignal cardReadsFail = true ∧ detect_from_card cardReadsFail = false := by
  exact ⟨by decide, rfl⟩

/-- C8 amended: for every card scope whose markup read succeeds, if any
one of the five signals (text indicators, badge selectors, photo-frame
indicators, image attributes, green photo-ring) is positive, then
`detect_from_card` returns true regardless of the other four. -/
theorem C8_signal_monotonicity (c : Card) (h : String)
    (hh : c.innerHtml = Except.ok h)
    (hs : (textSignal c || badgeSignal c || frameSignal c
            || imgAttrSignal c || greenRingSignal c) = true) :
    detect_from_card c = true :=
  detect_of_signals c h hh hs

/-- Witness for C8 at a card exhibiting only the text signal. -/
theorem C8_signal_monotonicity_witness :
    detect_from_card cardTextHit = true :=
  C8_signal_monotonicity cardTextHit "<div>Open To Work</div>" rfl (by decide)

/-- C6: `parse_name` normalizes whitespace, strips, drops parenthesized
spans and comma suffixes, splits on spaces and returns the first token
paired with the space-joined rest, as certified on the five specified
inputs. -/
theorem C6_parse_name_examples :
    parse_name "" = ("", "") ∧
    parse_name "John" = ("John", "") ∧
    parse_name "John Doe (PhD)" = ("John", "Doe") ∧
    parse_name "John Doe, MBA" = ("John", "Doe") ∧
    parse_name "  John   Doe  " = ("John", "Doe") := by
  decide

/-- C7: `extract_company_from_headline` tries the connector pattern then
the separator fallback and returns the first trimmed capture longer than
one character, as certified on the five specified headlines. -/
theorem C7_extract_company_examples :
    extract_company_from_headline "Software Engineer at Google" = "Google" ∧
    extract_company_from_headline "Ingenieur Logiciel chez Microsoft" = "Microsoft" ∧
    extract_company_from_headline "Software Engineer | Amazon" = "Amazon" ∧
    extract_company_from_headline "Software Engineer" = "" ∧
    extract_company_from_headline "Senior Software Engineer at Meta | Ex-Google" = "Meta" := by
  decide

/-- C9: whenever `parse_name` returns a nonempty last component,
first name, a space and last name concatenate back to the normalized
input (the name minus parenthetical and comma suffixes). -/
theorem C9_parse_name_reconstruction (s : String)
    (h : (parse_name s).2 ≠ "") :
    (parse_name s).1 ++ " " ++ (parse_name s).2 = normalizeName s := by
  rcases hs : splitSp (normalizeChars s.toList) with _ | ⟨x, rest⟩
  · exact absurd hs (splitSp_ne_nil _)
  · cases rest with
    | nil =>
      simp only [parse_name, hs] at h
      exact absurd rfl h
    | cons y ys =>
      simp only [parse_name, hs]
      have hj : joinSp (splitSp (normalizeChars s.toList)) = normalizeChars s.toList :=
        joinSp_splitSp _
      rw [hs] at hj
      have hx : String.mk x ++ " " ++ String.mk (joinSp (y :: ys))
          = String.mk (joinSp (x :: y :: ys)) := by
        rw [show (" " : String) = String.mk [' '] from rfl,
            string_mk_append, string_mk_append]
        apply congrArg
        simp [joinSp]
      rw [hx, hj]
      rfl

/-- Witness for C9 at a concrete multi-token name. -/
theorem C9_parse_name_reconstruction_witness :
    (parse_name "John Ronald Reuel Tolkien").1 ++ " "
        ++ (parse_name "John Ronald Reuel Tolkien").2
      = normalizeName "John Ronald Reuel Tolkien" :=
  C9_parse_name_reconstruction "John Ronald Reuel Tolkien" (by decide)

end Scraper
